import Mathlib

/-!
Shallow embedding of the crimson OSD client-request admission pipeline
(`src/crimson/osd/osd_operations/client_request.cc`).

The source drives one inbound client operation through map-epoch waits,
placement-group resolution, per-(connection, shard) sequencer admission,
recovery waits, the idempotence check, object locking and execution, with
an outer `seastar::repeat` loop that restarts or aborts the operation when
the replica set changes.  We embed that control flow as pure functions that
return the list of externally visible effects (events) together with an
outcome, over an oracle environment that fixes the answers of the external
collaborators (the PG, the recovery backend, the object-context loader, the
execution engine) and the points at which asynchronous waits fail.
-/

/-- Flag bits of an `MOSDOp` message that this file consults
(`CEPH_OSD_FLAG_ACK`, `ONDISK`, `BALANCE_READS`, `LOCALIZE_READS`,
`RETURNVEC`), each modelled as one boolean. -/
structure Flags where
  ack : Bool
  ondisk : Bool
  balanceReads : Bool
  localizeReads : Bool
  returnvec : Bool
  deriving DecidableEq, Repr

/-- One sub-operation of the client message; the source only asks whether it
is a pg-administrative op (`ceph_osd_op_type_pg`). -/
structure OSDOp where
  isPgType : Bool
  deriving DecidableEq, Repr

/-- The decoded client request (`MOSDOp`), reduced to the fields
`client_request.cc` reads: the sub-op list, the flag bits, the minimum
required epoch (`get_min_epoch`), the map epoch (`get_map_epoch`), the
client request id (`get_reqid`) and the target object (`get_hobj`). -/
structure MOSDOp where
  ops : List OSDOp
  flags : Flags
  minEpoch : Nat
  mapEpoch : Nat
  reqid : Nat
  hobj : Nat
  deriving DecidableEq, Repr

/-- Classification of the message computed by `op_info.set_from_op`
(may-read / may-write / may-cache). -/
structure OpInfo where
  mayRead : Bool
  mayWrite : Bool
  mayCache : Bool
  deriving DecidableEq, Repr

/-- Role state of the placement group as seen by this node: whether this
node is the primary, and whether it holds a valid replica role (a
non-negative role) for the shard at all. -/
structure PG where
  primary : Bool
  hasValidRole : Bool
  deriving DecidableEq, Repr

/-- Modelled from the spec: `PG::is_primary` is declared outside `src/`
(spec §6 external interface `is_primary() -> bool`); it reports whether this
node is the shard's primary. -/
def PG.is_primary (pg : PG) : Bool := pg.primary

/-- Modelled from the spec: `PG::is_nonprimary` is declared outside `src/`.
Per the spec's data model (a shard has one primary and zero or more
secondary replicas, and §4.4b speaks of a "valid replica role"), it reports
whether this node holds a valid replica role while not being the primary,
i.e. whether it is a valid non-primary replica of the shard. -/
def PG.is_nonprimary (pg : PG) : Bool := pg.hasValidRole && !pg.primary

/-- Modelled from the spec: the reply message (`MOSDOpReply`, outside
`src/`).  The two construction sites in the source pass a result code, an
epoch, the wanted ack/on-disk flag bits and an `ignore_out_data` boolean;
per spec §4.4a the last argument controls "whether extra per-op results are
attached" (true means the per-op output data is cleared). -/
structure MOSDOpReply where
  result : Int
  epoch : Nat
  ackFlag : Bool
  ondiskFlag : Bool
  ignoreOutData : Bool
  deriving DecidableEq, Repr

/-- Modelled from the spec: a reply attaches per-op return data exactly when
its `ignore_out_data` argument was false. -/
def attachesPerOpData (r : MOSDOpReply) : Bool := !r.ignoreOutData

/-- Errno value `EAGAIN` (the source replies with `-EAGAIN`). -/
def EAGAIN : Int := 11

/-- Reply built for an already-completed request id
(`client_request.cc:152-156`): the recorded result code, the PG's osdmap
epoch, acks wanted `CEPH_OSD_FLAG_ACK | CEPH_OSD_FLAG_ONDISK`, and
`ignore_out_data = false`. -/
def completedReply (m : MOSDOp) (ret : Int) (epoch : Nat) : MOSDOpReply :=
  { result := ret, epoch := epoch, ackFlag := true, ondiskFlag := true,
    ignoreOutData := false }

/-- Reply built for a non-primary node that cannot serve the replica read
(`client_request.cc:209-212`): result `-EAGAIN`, acks wanted
`m->get_flags() & (CEPH_OSD_FLAG_ACK | CEPH_OSD_FLAG_ONDISK)`, and
`ignore_out_data = !m->has_flag(CEPH_OSD_FLAG_RETURNVEC)`. -/
def eagainReply (m : MOSDOp) (epoch : Nat) : MOSDOpReply :=
  { result := -EAGAIN, epoch := epoch, ackFlag := m.flags.ack,
    ondiskFlag := m.flags.ondisk, ignoreOutData := !m.flags.returnvec }

/-- Per-(connection, shard) op sequencer, reduced to the field the
constructor reads (`get_last_issued`). -/
structure OpSequencer where
  lastIssued : Nat
  deriving DecidableEq, Repr

/-- State of one `ClientRequest` operation: its own id and the previous op
id captured from the sequencer at construction
(`client_request.cc:24-31`). -/
structure ClientRequest where
  myId : Nat
  prevOpId : Nat
  m : MOSDOp
  deriving DecidableEq, Repr

/-- Construction of a `ClientRequest` (`client_request.cc:24-31`):
`prev_op_id` is `sequencer.get_last_issued()` at construction time and is
never reassigned afterwards. -/
def ClientRequest.construct (seq : OpSequencer) (id : Nat) (m : MOSDOp) :
    ClientRequest :=
  { myId := id, prevOpId := seq.lastIssued, m := m }

/-- Test for a pg-administrative operation (`client_request.cc:57-62`):
`std::any_of` over the message's sub-ops. -/
def is_pg_op (op : ClientRequest) : Bool :=
  op.m.ops.any (fun o => o.isPgType)

/-- The misdirection decision (`client_request.cc:223-242`), verbatim from
the source: if neither the balance-reads nor the localize-reads flag is
set, misdirected; if a flag is set but the op has no read sub-op,
misdirected; if it may write or may cache, misdirected; otherwise the
source returns `pg.is_nonprimary()`. -/
def is_misdirected (pg : PG) (opInfo : OpInfo) (m : MOSDOp) : Bool :=
  if m.flags.balanceReads || m.flags.localizeReads then
    if !opInfo.mayRead then true
    else if opInfo.mayWrite || opInfo.mayCache then true
    else pg.is_nonprimary
  else true

/-- The misdirection decision as the spec states it (§4.4b), written for
comparison with `is_misdirected`: in the final case (pure
balanced/localized read) the spec says the op is misdirected only if this
node holds no valid replica role for the shard at all. -/
def spec_misdirected (pg : PG) (opInfo : OpInfo) (m : MOSDOp) : Bool :=
  if !(m.flags.balanceReads || m.flags.localizeReads) then true
  else if !opInfo.mayRead then true
  else if opInfo.mayWrite || opInfo.mayCache then true
  else !pg.hasValidRole

/-- Exceptional signals handled by the repeat loop
(`client_request.cc:114-128`): `crimson::common::actingset_changed` (with
its `is_primary()` payload) and `seastar::broken_condition_variable`. -/
inductive Signal
  | actingsetChanged (isPrimary : Bool)
  | brokenCondVar
  deriving DecidableEq, Repr

/-- Outcome of one awaited external step: it resolves, or it fails with a
signal. -/
inductive StepRes
  | ok
  | raise (s : Signal)
  deriving DecidableEq, Repr

/-- Outcome of `with_locked_obc`: the lock is acquired, the load fails with
a `load_obc_ertr` error (caught by `all_same_way`), or the wait fails with
a signal. -/
inductive ObcRes
  | ok
  | loadErr
  | raise (s : Signal)
  deriving DecidableEq, Repr

/-- Outcome of `pg->do_osd_ops`: a reply, the transient
`crimson::ct_error::eagain` (retried), another errorator error (caught by
`all_same_way`), or a signal. -/
inductive ExecRes
  | success (r : MOSDOpReply)
  | eagainRetry
  | err
  | raise (s : Signal)
  deriving DecidableEq, Repr

/-- Pipeline checkpoints entered by the source: the connection-scoped
`await_map` and `get_pg`, then the pg-scoped `await_map`,
`wait_for_active`, `recover_missing`, `get_obc` and `process`. -/
inductive Stage
  | awaitMap
  | getPg
  | pgAwaitMap
  | waitForActive
  | recoverMissing
  | getObc
  | process
  deriving DecidableEq, Repr

/-- Externally visible effects of the pipeline, in program order. -/
inductive Event
  | enterStage (s : Stage)
  | seqStartCall (prevId myId : Nat)
  | finishOp (myId : Nat)
  | maybeReset (myId : Nat)
  | abortSeq
  | sendIncMap (epoch : Nat)
  | sendReply (r : MOSDOpReply)
  | recoveryWaitExisting (obj : Nat)
  | recoveryStartNew (obj : Nat)
  | acquireObc (obj : Nat)
  | execute (obj : Nat)
  deriving DecidableEq, Repr

/-- Oracle answers consumed by one attempt of the object-op path
(`process_op` and below); a fresh element of the list is consumed each time
the transient-eagain signal re-enters the path. -/
structure AttemptEnv where
  opInfo : OpInfo
  unreadable : Bool
  degraded : Bool
  recovering : Bool
  recoverWait : StepRes
  recoverStart : StepRes
  alreadyComplete : Bool
  alreadyRet : Int
  canServeReplicaRead : Bool
  obc : ObcRes
  exec : ExecRes
  osdmapEpoch : Nat
  deriving DecidableEq, Repr

/-- Oracle answers consumed by one iteration of the outer repeat loop. -/
structure IterEnv where
  pg : PG
  canDiscard : Bool
  admission : StepRes
  pgAwaitMap : StepRes
  waitActive : StepRes
  pgOpReply : MOSDOpReply
  attempts : List AttemptEnv
  deriving DecidableEq, Repr

/-- Outcome of the sequencer-admitted body and of the object-op path: it
completes, it runs out of modelled eagain attempts, or it fails with a
signal. -/
inductive POutcome
  | done
  | pendingExec
  | raised (s : Signal)
  deriving DecidableEq, Repr

/-- Recovery trigger (`ClientRequest::do_recover_missing`,
`client_request.cc:179-197`): if the object is neither unreadable nor
degraded/backfilling, resolve immediately; else if a recovery is already
registered for it, await the existing completion; else start one new
urgent-recovery task and await it. -/
def do_recover_missing (op : ClientRequest) (a : AttemptEnv) :
    List Event × Option Signal :=
  if !a.unreadable && !a.degraded then ([], none)
  else if a.recovering then
    ([Event.recoveryWaitExisting op.m.hobj],
     match a.recoverWait with | .ok => none | .raise s => some s)
  else
    ([Event.recoveryStartNew op.m.hobj],
     match a.recoverStart with | .ok => none | .raise s => some s)

/-- Execution step of `do_process` (`client_request.cc:216-220`):
`pg->do_osd_ops` then either send the reply, re-enter `process_op` on the
eagain error (the `retry` argument is the already-computed re-entry), let
other errors flow to the `all_same_way` handler, or propagate a signal. -/
def run_exec (a : AttemptEnv) (obj : Nat) (retry : List Event × POutcome) :
    List Event × POutcome :=
  match a.exec with
  | .success r => ([Event.execute obj, Event.sendReply r], .done)
  | .eagainRetry => (Event.execute obj :: retry.1, retry.2)
  | .err => ([Event.execute obj], .done)
  | .raise s => ([Event.execute obj], .raised s)

/-- Post-lock processing (`ClientRequest::do_process`,
`client_request.cc:199-221`): on a non-primary node, a misdirected op is
silently dropped; a non-misdirected op whose object the PG cannot serve as
a replica read gets the `-EAGAIN` reply; otherwise the op is executed. -/
def do_process (op : ClientRequest) (pg : PG) (a : AttemptEnv)
    (retry : List Event × POutcome) : List Event × POutcome :=
  if !pg.is_primary then
    if is_misdirected pg a.opInfo op.m then ([], .done)
    else if !a.canServeReplicaRead then
      ([Event.sendReply (eagainReply op.m a.osdmapEpoch)], .done)
    else run_exec a op.m.hobj retry
  else run_exec a op.m.hobj retry

/-- Object-op path (`ClientRequest::process_op`,
`client_request.cc:143-177`): enter `recover_missing` and run the recovery
trigger; then the idempotence check (`pg->already_complete`) — on a hit,
send the recorded-result reply and stop; otherwise enter `get_obc`, acquire
the locked object context (`with_locked_obc`; a load error is caught by
`all_same_way` and ends the op without a reply), enter `process` and run
`do_process`, whose eagain re-entry consumes the rest of the attempt
list. -/
def process_op (op : ClientRequest) (pg : PG) :
    List AttemptEnv → List Event × POutcome
  | [] => ([], .pendingExec)
  | a :: rest =>
    let recm := do_recover_missing op a
    match recm.2 with
    | some s => (Event.enterStage .recoverMissing :: recm.1, .raised s)
    | none =>
      if a.alreadyComplete then
        (Event.enterStage .recoverMissing :: recm.1
          ++ [Event.sendReply (completedReply op.m a.alreadyRet a.osdmapEpoch)],
         .done)
      else
        match a.obc with
        | .loadErr =>
          (Event.enterStage .recoverMissing :: recm.1
            ++ [Event.enterStage .getObc], .done)
        | .raise s =>
          (Event.enterStage .recoverMissing :: recm.1
            ++ [Event.enterStage .getObc], .raised s)
        | .ok =>
          let d := do_process op pg a (process_op op pg rest)
          (Event.enterStage .recoverMissing :: recm.1
            ++ [Event.enterStage .getObc, Event.acquireObc op.m.hobj,
                Event.enterStage .process]
            ++ d.1, d.2)

/-- Sequencer-admitted body (`client_request.cc:84-110`): a discardable op
gets only `send_incremental_map(conn, m->get_map_epoch())`; otherwise the
body enters the pg-scoped `await_map` and `wait_for_active` checkpoints,
finalizes decoding, and branches to the pg-op path or `process_op`. -/
def iter_body (op : ClientRequest) (e : IterEnv) : List Event × POutcome :=
  if e.canDiscard then ([Event.sendIncMap op.m.mapEpoch], .done)
  else
    match e.pgAwaitMap with
    | .raise s => ([Event.enterStage .pgAwaitMap], .raised s)
    | .ok =>
      match e.waitActive with
      | .raise s =>
        ([Event.enterStage .pgAwaitMap, Event.enterStage .waitForActive],
         .raised s)
      | .ok =>
        if is_pg_op op then
          ([Event.enterStage .pgAwaitMap, Event.enterStage .waitForActive,
            Event.sendReply e.pgOpReply], .done)
        else
          let p := process_op op e.pg e.attempts
          (Event.enterStage .pgAwaitMap :: Event.enterStage .waitForActive
            :: p.1, p.2)

/-- One iteration of the repeat loop (`client_request.cc:71-110`): enter the
connection-scoped `await_map` and `get_pg` checkpoints, then call
`sequencer.start_op(handle, prev_op_id, get_id(), body)`; the admission
wait may fail with a signal (in particular `broken_condition_variable` when
the sequencer was aborted), otherwise the body runs. -/
def runIteration (op : ClientRequest) (e : IterEnv) : List Event × POutcome :=
  let pre := [Event.enterStage .awaitMap, Event.enterStage .getPg,
              Event.seqStartCall op.prevOpId op.myId]
  match e.admission with
  | .raise s => (pre, .raised s)
  | .ok =>
    let b := iter_body op e
    (pre ++ b.1, b.2)

/-- Final status of the repeat loop. -/
inductive LoopStatus
  | completed
  | abortedPrimaryChange
  | stoppedBrokenCv
  | pendingRestart
  | pendingExec
  deriving DecidableEq, Repr

/-- The repeat loop of `ClientRequest::start`
(`client_request.cc:64-132`): on success `sequencer.finish_op(get_id())`
runs and the loop stops; on `actingset_changed` with `is_primary()` the
loop calls `sequencer.maybe_reset(get_id())` and repeats; on
`actingset_changed` without `is_primary()` it calls `sequencer.abort()` and
stops; on `broken_condition_variable` it stops silently. -/
def startLoop (op : ClientRequest) : List IterEnv → List Event × LoopStatus
  | [] => ([], .pendingRestart)
  | e :: rest =>
    let it := runIteration op e
    match it.2 with
    | .done => (it.1 ++ [Event.finishOp op.myId], .completed)
    | .pendingExec => (it.1, .pendingExec)
    | .raised (.actingsetChanged true) =>
      let cont := startLoop op rest
      (it.1 ++ Event.maybeReset op.myId :: cont.1, cont.2)
    | .raised (.actingsetChanged false) =>
      (it.1 ++ [Event.abortSeq], .abortedPrimaryChange)
    | .raised .brokenCondVar => (it.1, .stoppedBrokenCv)

/-- Test for a send effect (a reply or an incremental-map advisory). -/
def Event.isSend : Event → Bool
  | .sendReply _ => true
  | .sendIncMap _ => true
  | _ => false

/-- Test for a sequencer-control effect (`start_op`, `finish_op`,
`maybe_reset`, `abort`). -/
def Event.isSeqCtl : Event → Bool
  | .seqStartCall _ _ => true
  | .finishOp _ => true
  | .maybeReset _ => true
  | .abortSeq => true
  | _ => false

/-- Test for a recovery-engine effect. -/
def Event.isRecoveryEvt : Event → Bool
  | .recoveryWaitExisting _ => true
  | .recoveryStartNew _ => true
  | _ => false

/-- Test for an object-lock acquisition effect. -/
def Event.isLock : Event → Bool
  | .acquireObc _ => true
  | _ => false

/-- Test for an execution (`do_osd_ops`) effect. -/
def Event.isExec : Event → Bool
  | .execute _ => true
  | _ => false

/-- The sequence of `start_op` invocations recorded in a trace, each with
its `(prev_op_id, my_id)` pair: the operation's slot in the
per-(connection, shard) sequencer order. -/
def seqCalls : List Event → List (Nat × Nat)
  | [] => []
  | Event.seqStartCall p i :: t => (p, i) :: seqCalls t
  | _ :: t => seqCalls t

/-- Sample message with ack and ondisk flags and no balance/localize or
returnvec flags. -/
def flags0 : Flags :=
  { ack := true, ondisk := true, balanceReads := false,
    localizeReads := false, returnvec := false }

/-- Sample message flags for a balanced read (no returnvec flag). -/
def flagsBal : Flags :=
  { ack := true, ondisk := false, balanceReads := true,
    localizeReads := false, returnvec := false }

/-- Sample plain client message. -/
def m0 : MOSDOp :=
  { ops := [{ isPgType := false }], flags := flags0, minEpoch := 3,
    mapEpoch := 5, reqid := 42, hobj := 9 }

/-- Sample balanced-read client message. -/
def mBal : MOSDOp :=
  { ops := [{ isPgType := false }], flags := flagsBal, minEpoch := 3,
    mapEpoch := 5, reqid := 42, hobj := 9 }

/-- Sample operation: constructed against a sequencer whose last issued id
is 6, so its own id is 7 and its captured `prev_op_id` is 6. -/
def op0 : ClientRequest := ClientRequest.construct { lastIssued := 6 } 7 m0

/-- Sample classification of a pure read. -/
def opInfoRead : OpInfo := { mayRead := true, mayWrite := false, mayCache := false }

/-- Sample primary PG role state. -/
def pgPrim : PG := { primary := true, hasValidRole := true }

/-- Sample valid non-primary replica PG role state. -/
def pgReplica : PG := { primary := false, hasValidRole := true }

/-- Sample successful execution reply. -/
def reply0 : MOSDOpReply :=
  { result := 0, epoch := 5, ackFlag := true, ondiskFlag := true,
    ignoreOutData := false }

/-- Sample attempt oracle: healthy object, no prior completion, lock and
execution succeed. -/
def aClean : AttemptEnv :=
  { opInfo := opInfoRead, unreadable := false, degraded := false,
    recovering := false, recoverWait := .ok, recoverStart := .ok,
    alreadyComplete := false, alreadyRet := 0, canServeReplicaRead := true,
    obc := .ok, exec := .success reply0, osdmapEpoch := 5 }

/-- Every event emitted by the recovery trigger is a recovery-engine
effect. -/
theorem do_recover_missing_events (op : ClientRequest) (a : AttemptEnv) :
    ∀ ev ∈ (do_recover_missing op a).1, Event.isRecoveryEvt ev = true := by
  intro ev h
  cases hu : a.unreadable <;> cases hd : a.degraded <;> cases hr : a.recovering <;>
    simp [do_recover_missing, hu, hd, hr] at h <;>
    simp [h, Event.isRecoveryEvt]

/-- Recovery-engine effects are not sends, sequencer controls, lock
acquisitions or executions. -/
theorem recoveryEvt_props (ev : Event) (h : Event.isRecoveryEvt ev = true) :
    Event.isSend ev = false ∧ Event.isSeqCtl ev = false
      ∧ Event.isLock ev = false ∧ Event.isExec ev = false := by
  cases ev <;> simp [Event.isRecoveryEvt] at h <;>
    simp [Event.isSend, Event.isSeqCtl, Event.isLock, Event.isExec]

/-- The execution step emits no sequencer-control effect, given that the
eagain re-entry it may splice in emits none. -/
theorem run_exec_noSeqCtl (a : AttemptEnv) (obj : Nat)
    (retry : List Event × POutcome)
    (hr : ∀ ev ∈ retry.1, Event.isSeqCtl ev = false) :
    ∀ ev ∈ (run_exec a obj retry).1, Event.isSeqCtl ev = false := by
  intro ev h
  cases hx : a.exec <;> simp [run_exec, hx] at h
  case success r =>
    rcases h with h | h <;> simp [h, Event.isSeqCtl]
  case eagainRetry =>
    rcases h with h | h
    · simp [h, Event.isSeqCtl]
    · exact hr ev h
  case err => simp [h, Event.isSeqCtl]
  case raise s => simp [h, Event.isSeqCtl]

/-- Post-lock processing emits no sequencer-control effect, given that the
eagain re-entry emits none. -/
theorem do_process_noSeqCtl (op : ClientRequest) (pg : PG) (a : AttemptEnv)
    (retry : List Event × POutcome)
    (hr : ∀ ev ∈ retry.1, Event.isSeqCtl ev = false) :
    ∀ ev ∈ (do_process op pg a retry).1, Event.isSeqCtl ev = false := by
  intro ev h
  cases hp : pg.primary <;> simp [do_process, PG.is_primary, hp] at h
  · by_cases hm : is_misdirected pg a.opInfo op.m = true
    · simp [hm] at h
    · simp [Bool.not_eq_true] at hm
      simp [hm] at h
      cases hs : a.canServeReplicaRead <;> simp [hs] at h
      · simp [h, Event.isSeqCtl]
      · exact run_exec_noSeqCtl a op.m.hobj retry hr ev h
  · exact run_exec_noSeqCtl a op.m.hobj retry hr ev h

/-- The object-op path emits no sequencer-control effect: `start_op`,
`finish_op`, `maybe_reset` and `abort` happen only in the outer loop. -/
theorem process_op_noSeqCtl (op : ClientRequest) (pg : PG) :
    ∀ (l : List AttemptEnv), ∀ ev ∈ (process_op op pg l).1,
      Event.isSeqCtl ev = false := by
  intro l
  induction l with
  | nil => intro ev h; simp [process_op] at h
  | cons a rest ih =>
    intro ev h
    have hrec := do_recover_missing_events op a
    cases hm : (do_recover_missing op a).2 with
    | some s =>
      simp [process_op, hm] at h
      rcases h with h | h
      · simp [h, Event.isSeqCtl]
      · exact (recoveryEvt_props ev (hrec ev h)).2.1
    | none =>
      cases hc : a.alreadyComplete
      · cases hobc : a.obc with
        | loadErr =>
          simp [process_op, hm, hc, hobc] at h
          rcases h with h | h | h
          · simp [h, Event.isSeqCtl]
          · exact (recoveryEvt_props ev (hrec ev h)).2.1
          · simp [h, Event.isSeqCtl]
        | raise s =>
          simp [process_op, hm, hc, hobc] at h
          rcases h with h | h | h
          · simp [h, Event.isSeqCtl]
          · exact (recoveryEvt_props ev (hrec ev h)).2.1
          · simp [h, Event.isSeqCtl]
        | ok =>
          simp [process_op, hm, hc, hobc] at h
          rcases h with h | h | h | h | h | h
          · simp [h, Event.isSeqCtl]
          · exact (recoveryEvt_props ev (hrec ev h)).2.1
          · simp [h, Event.isSeqCtl]
          · simp [h, Event.isSeqCtl]
          · simp [h, Event.isSeqCtl]
          · exact do_process_noSeqCtl op pg a _ (ih) ev h
      · simp [process_op, hm, hc] at h
        rcases h with h | h | h
        · simp [h, Event.isSeqCtl]
        · exact (recoveryEvt_props ev (hrec ev h)).2.1
        · simp [h, Event.isSeqCtl]

/-- Branch equation: post-lock processing reduces to the execution step when
this node is primary, or when the op is neither misdirected nor unservable
as a replica read. -/
theorem do_process_eq_exec (op : ClientRequest) (pg : PG) (a : AttemptEnv)
    (retry : List Event × POutcome)
    (h : pg.is_primary = true
      ∨ (is_misdirected pg a.opInfo op.m = false ∧ a.canServeReplicaRead = true)) :
    do_process op pg a retry = run_exec a op.m.hobj retry := by
  rcases h with h | ⟨h1, h2⟩
  · simp [do_process, h]
  · simp [do_process, h1, h2]

/-- Branch equation: a misdirected op on a non-primary node is silently
dropped. -/
theorem do_process_eq_drop (op : ClientRequest) (pg : PG) (a : AttemptEnv)
    (retry : List Event × POutcome) (hp : pg.is_primary = false)
    (hm : is_misdirected pg a.opInfo op.m = true) :
    do_process op pg a retry = ([], .done) := by
  simp [do_process, hp, hm]

/-- Branch equation: a non-misdirected op on a non-primary node that cannot
be served as a replica read gets the `-EAGAIN` reply. -/
theorem do_process_eq_eagainReply (op : ClientRequest) (pg : PG)
    (a : AttemptEnv) (retry : List Event × POutcome)
    (hp : pg.is_primary = false)
    (hm : is_misdirected pg a.opInfo op.m = false)
    (hs : a.canServeReplicaRead = false) :
    do_process op pg a retry
      = ([Event.sendReply (eagainReply op.m a.osdmapEpoch)], .done) := by
  simp [do_process, hp, hm, hs]

/-- Branch equation: the object-op path when the recovery wait raises a
signal. -/
theorem process_op_cons_recRaise (op : ClientRequest) (pg : PG)
    (a : AttemptEnv) (rest : List AttemptEnv) (s : Signal)
    (hm : (do_recover_missing op a).2 = some s) :
    process_op op pg (a :: rest)
      = (Event.enterStage .recoverMissing :: (do_recover_missing op a).1,
         .raised s) := by
  simp [process_op, hm]

/-- Branch equation: the object-op path on an idempotence-check hit. -/
theorem process_op_cons_completed (op : ClientRequest) (pg : PG)
    (a : AttemptEnv) (rest : List AttemptEnv)
    (hm : (do_recover_missing op a).2 = none)
    (hc : a.alreadyComplete = true) :
    process_op op pg (a :: rest)
      = (Event.enterStage .recoverMissing :: (do_recover_missing op a).1
          ++ [Event.sendReply (completedReply op.m a.alreadyRet a.osdmapEpoch)],
         .done) := by
  simp [process_op, hm, hc]

/-- Branch equation: the object-op path when the object-context load
fails. -/
theorem process_op_cons_loadErr (op : ClientRequest) (pg : PG)
    (a : AttemptEnv) (rest : List AttemptEnv)
    (hm : (do_recover_missing op a).2 = none)
    (hc : a.alreadyComplete = false) (ho : a.obc = .loadErr) :
    process_op op pg (a :: rest)
      = (Event.enterStage .recoverMissing :: (do_recover_missing op a).1
          ++ [Event.enterStage .getObc], .done) := by
  simp [process_op, hm, hc, ho]

/-- Branch equation: the object-op path when the object-context wait raises
a signal. -/
theorem process_op_cons_obcRaise (op : ClientRequest) (pg : PG)
    (a : AttemptEnv) (rest : List AttemptEnv) (s : Signal)
    (hm : (do_recover_missing op a).2 = none)
    (hc : a.alreadyComplete = false) (ho : a.obc = .raise s) :
    process_op op pg (a :: rest)
      = (Event.enterStage .recoverMissing :: (do_recover_missing op a).1
          ++ [Event.enterStage .getObc], .raised s) := by
  simp [process_op, hm, hc, ho]

/-- Branch equation: the object-op path once the object context is
locked. -/
theorem process_op_cons_locked (op : ClientRequest) (pg : PG)
    (a : AttemptEnv) (rest : List AttemptEnv)
    (hm : (do_recover_missing op a).2 = none)
    (hc : a.alreadyComplete = false) (ho : a.obc = .ok) :
    process_op op pg (a :: rest)
      = (Event.enterStage .recoverMissing :: (do_recover_missing op a).1
          ++ [Event.enterStage .getObc, Event.acquireObc op.m.hobj,
              Event.enterStage .process]
          ++ (do_process op pg a (process_op op pg rest)).1,
         (do_process op pg a (process_op op pg rest)).2) := by
  simp [process_op, hm, hc, ho]

/-- Every re-entry of the object-op path begins at its first checkpoint,
the recovery wait. -/
theorem process_op_cons_head (op : ClientRequest) (pg : PG) (a : AttemptEnv)
    (rest : List AttemptEnv) :
    ∃ t, (process_op op pg (a :: rest)).1
      = Event.enterStage .recoverMissing :: t := by
  cases hm : (do_recover_missing op a).2 with
  | some s => exact ⟨_, by rw [process_op_cons_recRaise op pg a rest s hm]⟩
  | none =>
    cases hc : a.alreadyComplete with
    | false =>
      cases ho : a.obc with
      | loadErr => exact ⟨_, by rw [process_op_cons_loadErr op pg a rest hm hc ho]; rfl⟩
      | raise s => exact ⟨_, by rw [process_op_cons_obcRaise op pg a rest s hm hc ho]; rfl⟩
      | ok => exact ⟨_, by rw [process_op_cons_locked op pg a rest hm hc ho]; rfl⟩
    | true => exact ⟨_, by rw [process_op_cons_completed op pg a rest hm hc]; rfl⟩

/-- If the execution step raises a signal, its trace contains no send,
provided the eagain re-entry it may splice in has that property. -/
theorem run_exec_raised_noSend (a : AttemptEnv) (obj : Nat)
    (retry : List Event × POutcome)
    (hr : ∀ s, retry.2 = POutcome.raised s →
      ∀ ev ∈ retry.1, Event.isSend ev = false) :
    ∀ s, (run_exec a obj retry).2 = POutcome.raised s →
      ∀ ev ∈ (run_exec a obj retry).1, Event.isSend ev = false := by
  intro s hs ev h
  cases hx : a.exec <;> simp [run_exec, hx] at hs h
  case eagainRetry =>
    rcases h with h | h
    · simp [h, Event.isSend]
    · exact hr s hs ev h
  case raise s2 =>
    simp [h, Event.isSend]

/-- If post-lock processing raises a signal, its trace contains no send,
provided the eagain re-entry has that property. -/
theorem do_process_raised_noSend (op : ClientRequest) (pg : PG)
    (a : AttemptEnv) (retry : List Event × POutcome)
    (hr : ∀ s, retry.2 = POutcome.raised s →
      ∀ ev ∈ retry.1, Event.isSend ev = false) :
    ∀ s, (do_process op pg a retry).2 = POutcome.raised s →
      ∀ ev ∈ (do_process op pg a retry).1, Event.isSend ev = false := by
  intro s hs ev h
  by_cases hp : pg.is_primary = true
  · rw [do_process_eq_exec op pg a retry (Or.inl hp)] at hs h
    exact run_exec_raised_noSend a op.m.hobj retry hr s hs ev h
  · have hp2 : pg.is_primary = false := by simpa using hp
    by_cases hmd : is_misdirected pg a.opInfo op.m = true
    · rw [do_process_eq_drop op pg a retry hp2 hmd] at hs
      exact absurd hs (by simp)
    · have hm2 : is_misdirected pg a.opInfo op.m = false := by simpa using hmd
      by_cases hcs : a.canServeReplicaRead = true
      · rw [do_process_eq_exec op pg a retry (Or.inr ⟨hm2, hcs⟩)] at hs h
        exact run_exec_raised_noSend a op.m.hobj retry hr s hs ev h
      · have hcs2 : a.canServeReplicaRead = false := by simpa using hcs
        rw [do_process_eq_eagainReply op pg a retry hp2 hm2 hcs2] at hs
        exact absurd hs (by simp)

/-- If the object-op path raises a signal, its trace contains no send: a
reply, once sent, is terminal for the attempt. -/
theorem process_op_raised_noSend (op : ClientRequest) (pg : PG) :
    ∀ (l : List AttemptEnv) (s : Signal),
      (process_op op pg l).2 = POutcome.raised s →
      ∀ ev ∈ (process_op op pg l).1, Event.isSend ev = false := by
  intro l
  induction l with
  | nil => intro s hs; simp [process_op] at hs
  | cons a rest ih =>
    intro s hs ev h
    have hrec := do_recover_missing_events op a
    cases hm : (do_recover_missing op a).2 with
    | some s2 =>
      rw [process_op_cons_recRaise op pg a rest s2 hm] at hs h
      simp at h
      rcases h with h | h
      · simp [h, Event.isSend]
      · exact (recoveryEvt_props ev (hrec ev h)).1
    | none =>
      cases hc : a.alreadyComplete with
      | true =>
        rw [process_op_cons_completed op pg a rest hm hc] at hs
        exact absurd hs (by simp)
      | false =>
        cases ho : a.obc with
        | loadErr =>
          rw [process_op_cons_loadErr op pg a rest hm hc ho] at hs
          exact absurd hs (by simp)
        | raise s2 =>
          rw [process_op_cons_obcRaise op pg a rest s2 hm hc ho] at h
          simp at h
          rcases h with h | h | h
          · simp [h, Event.isSend]
          · exact (recoveryEvt_props ev (hrec ev h)).1
          · simp [h, Event.isSend]
        | ok =>
          rw [process_op_cons_locked op pg a rest hm hc ho] at hs h
          simp at h
          rcases h with h | h | h | h | h | h
          · simp [h, Event.isSend]
          · exact (recoveryEvt_props ev (hrec ev h)).1
          · simp [h, Event.isSend]
          · simp [h, Event.isSend]
          · simp [h, Event.isSend]
          · exact do_process_raised_noSend op pg a _ (fun s3 hs3 => ih s3 hs3) s hs ev h

/-- The sequencer-admitted body emits no sequencer-control effect. -/
theorem iter_body_noSeqCtl (op : ClientRequest) (e : IterEnv) :
    ∀ ev ∈ (iter_body op e).1, Event.isSeqCtl ev = false := by
  intro ev h
  cases hd : e.canDiscard with
  | true =>
    simp [iter_body, hd] at h
    simp [h, Event.isSeqCtl]
  | false =>
    cases hpm : e.pgAwaitMap with
    | raise s =>
      simp [iter_body, hd, hpm] at h
      simp [h, Event.isSeqCtl]
    | ok =>
      cases hwa : e.waitActive with
      | raise s =>
        simp [iter_body, hd, hpm, hwa] at h
        rcases h with h | h <;> simp [h, Event.isSeqCtl]
      | ok =>
        cases hpg : is_pg_op op with
        | true =>
          simp [iter_body, hd, hpm, hwa, hpg] at h
          rcases h with h | h | h <;> simp [h, Event.isSeqCtl]
        | false =>
          simp [iter_body, hd, hpm, hwa, hpg] at h
          rcases h with h | h | h
          · simp [h, Event.isSeqCtl]
          · simp [h, Event.isSeqCtl]
          · exact process_op_noSeqCtl op e.pg e.attempts ev h

/-- If the sequencer-admitted body raises a signal its trace contains no
send. -/
theorem iter_body_raised_noSend (op : ClientRequest) (e : IterEnv) :
    ∀ s, (iter_body op e).2 = POutcome.raised s →
      ∀ ev ∈ (iter_body op e).1, Event.isSend ev = false := by
  intro s hs ev h
  cases hd : e.canDiscard with
  | true => simp [iter_body, hd] at hs
  | false =>
    cases hpm : e.pgAwaitMap with
    | raise s2 =>
      simp [iter_body, hd, hpm] at h
      simp [h, Event.isSend]
    | ok =>
      cases hwa : e.waitActive with
      | raise s2 =>
        simp [iter_body, hd, hpm, hwa] at h
        rcases h with h | h <;> simp [h, Event.isSend]
      | ok =>
        cases hpg : is_pg_op op with
        | true => simp [iter_body, hd, hpm, hwa, hpg] at hs
        | false =>
          simp [iter_body, hd, hpm, hwa, hpg] at hs h
          rcases h with h | h | h
          · simp [h, Event.isSend]
          · simp [h, Event.isSend]
          · exact process_op_raised_noSend op e.pg e.attempts s hs ev h

/-- If a loop iteration raises a signal its trace contains no send. -/
theorem runIteration_raised_noSend (op : ClientRequest) (e : IterEnv) :
    ∀ s, (runIteration op e).2 = POutcome.raised s →
      ∀ ev ∈ (runIteration op e).1, Event.isSend ev = false := by
  intro s hs ev h
  cases ha : e.admission with
  | raise s2 =>
    simp [runIteration, ha] at h
    rcases h with h | h | h <;> simp [h, Event.isSend]
  | ok =>
    simp [runIteration, ha] at hs h
    rcases h with h | h | h | h
    · simp [h, Event.isSend]
    · simp [h, Event.isSend]
    · simp [h, Event.isSend]
    · exact iter_body_raised_noSend op e s hs ev h

/-- Concatenation law for the recorded `start_op` invocations. -/
theorem seqCalls_append (s t : List Event) :
    seqCalls (s ++ t) = seqCalls s ++ seqCalls t := by
  induction s with
  | nil => rfl
  | cons e s ih => cases e <;> simp [seqCalls, ih]

/-- A trace without sequencer-control effects records no `start_op`
invocation. -/
theorem seqCalls_nil_of_noSeqCtl : ∀ t : List Event,
    (∀ ev ∈ t, Event.isSeqCtl ev = false) → seqCalls t = [] := by
  intro t
  induction t with
  | nil => intro _; rfl
  | cons e t ih =>
    intro h
    have he := h e (List.mem_cons_self e t)
    have ht := ih (fun ev hv => h ev (List.mem_cons_of_mem e hv))
    cases e <;> simp [seqCalls, ht] <;> simp [Event.isSeqCtl] at he

/-- Every loop iteration calls `start_op` exactly once, always with the
`(prev_op_id, my_id)` pair captured at construction: the operation's
sequencer slot is the same on every attempt. -/
theorem runIteration_seqCalls (op : ClientRequest) (e : IterEnv) :
    seqCalls (runIteration op e).1 = [(op.prevOpId, op.myId)] := by
  cases ha : e.admission with
  | raise s => simp [runIteration, ha, seqCalls]
  | ok =>
    have hb := seqCalls_nil_of_noSeqCtl (iter_body op e).1 (iter_body_noSeqCtl op e)
    simp [runIteration, ha, seqCalls_append, hb, seqCalls]

/-- Branch equation: a successful body is followed by `finish_op` and the
loop stops. -/
theorem startLoop_cons_done (op : ClientRequest) (e : IterEnv)
    (rest : List IterEnv) (h : (runIteration op e).2 = POutcome.done) :
    startLoop op (e :: rest)
      = ((runIteration op e).1 ++ [Event.finishOp op.myId], .completed) := by
  simp [startLoop, h]

/-- Branch equation: an iteration that runs out of modelled attempts stops
the loop in the pending state. -/
theorem startLoop_cons_pending (op : ClientRequest) (e : IterEnv)
    (rest : List IterEnv) (h : (runIteration op e).2 = POutcome.pendingExec) :
    startLoop op (e :: rest) = ((runIteration op e).1, .pendingExec) := by
  simp [startLoop, h]

/-- Branch equation: the still-primary replica-set-changed signal triggers
`maybe_reset` with the operation's own id and the loop repeats. -/
theorem startLoop_cons_restart (op : ClientRequest) (e : IterEnv)
    (rest : List IterEnv)
    (h : (runIteration op e).2 = POutcome.raised (.actingsetChanged true)) :
    startLoop op (e :: rest)
      = ((runIteration op e).1
          ++ Event.maybeReset op.myId :: (startLoop op rest).1,
         (startLoop op rest).2) := by
  simp [startLoop, h]

/-- Branch equation: the no-longer-primary replica-set-changed signal
triggers `sequencer.abort()` and the loop stops. -/
theorem startLoop_cons_abort (op : ClientRequest) (e : IterEnv)
    (rest : List IterEnv)
    (h : (runIteration op e).2 = POutcome.raised (.actingsetChanged false)) :
    startLoop op (e :: rest)
      = ((runIteration op e).1 ++ [Event.abortSeq], .abortedPrimaryChange) := by
  simp [startLoop, h]

/-- Branch equation: a broken condition variable stops the loop silently. -/
theorem startLoop_cons_broken (op : ClientRequest) (e : IterEnv)
    (rest : List IterEnv)
    (h : (runIteration op e).2 = POutcome.raised .brokenCondVar) :
    startLoop op (e :: rest) = ((runIteration op e).1, .stoppedBrokenCv) := by
  simp [startLoop, h]

/-- Sample balanced-read operation. -/
def opBal : ClientRequest := ClientRequest.construct { lastIssued := 6 } 7 mBal

/-- Sample stray PG role state: non-primary with no valid replica role. -/
def pgStray : PG := { primary := false, hasValidRole := false }

/-- Iteration oracle whose pg-map wait fails with the still-primary
replica-set-changed signal. -/
def eRestart : IterEnv :=
  { pg := pgPrim, canDiscard := false, admission := .ok,
    pgAwaitMap := .raise (.actingsetChanged true), waitActive := .ok,
    pgOpReply := reply0, attempts := [] }

/-- Clean iteration oracle: everything succeeds in one attempt. -/
def eClean : IterEnv :=
  { pg := pgPrim, canDiscard := false, admission := .ok, pgAwaitMap := .ok,
    waitActive := .ok, pgOpReply := reply0, attempts := [aClean] }

/-- Iteration oracle for a discardable operation. -/
def eDiscard : IterEnv :=
  { pg := pgPrim, canDiscard := true, admission := .ok, pgAwaitMap := .ok,
    waitActive := .ok, pgOpReply := reply0, attempts := [aClean] }

/-- Iteration oracle whose pg-map wait fails with the no-longer-primary
replica-set-changed signal. -/
def eAbort : IterEnv :=
  { pg := pgPrim, canDiscard := false, admission := .ok,
    pgAwaitMap := .raise (.actingsetChanged false), waitActive := .ok,
    pgOpReply := reply0, attempts := [] }

/-- Iteration oracle whose sequencer admission wait fails with a broken
condition variable. -/
def eBroken : IterEnv :=
  { pg := pgPrim, canDiscard := false,
    admission := .raise .brokenCondVar, pgAwaitMap := .ok,
    waitActive := .ok, pgOpReply := reply0, attempts := [aClean] }

/-- Attempt oracle whose request id the shard reports as already
completed, with recorded result 3. -/
def aDone : AttemptEnv :=
  { aClean with alreadyComplete := true, alreadyRet := 3 }

/-- Attempt oracle for a degraded object whose recovery is already
registered. -/
def aDegraded : AttemptEnv :=
  { aClean with degraded := true, recovering := true }

/-- Attempt oracle for an object this replica cannot serve as a replica
read. -/
def aNoServe : AttemptEnv :=
  { aClean with canServeReplicaRead := false }

/-- Attempt oracle whose execution returns the transient eagain signal. -/
def aEagain : AttemptEnv :=
  { aClean with exec := .eagainRetry }

/-- Claim C1: when the execution body fails with the replica-set-changed
signal while this node is still primary, the loop calls `maybe_reset` with
the operation's own id and re-runs admission; every attempt — in
particular the retried one — calls `start_op` with the same
`(prev_op_id, my_id)` pair captured at construction, so the retried
attempt's slot in the per-(connection, shard) sequencer order equals its
first attempt's slot. -/
theorem C1_restart_preserves_sequencer_slot (op : ClientRequest)
    (e1 e2 : IterEnv) (rest : List IterEnv)
    (h : (runIteration op e1).2 = POutcome.raised (.actingsetChanged true)) :
    startLoop op (e1 :: e2 :: rest)
      = ((runIteration op e1).1
          ++ Event.maybeReset op.myId :: (startLoop op (e2 :: rest)).1,
         (startLoop op (e2 :: rest)).2)
    ∧ seqCalls (runIteration op e1).1 = [(op.prevOpId, op.myId)]
    ∧ seqCalls (runIteration op e2).1 = [(op.prevOpId, op.myId)] :=
  ⟨startLoop_cons_restart op e1 (e2 :: rest) h,
   runIteration_seqCalls op e1, runIteration_seqCalls op e2⟩

/-- Witness for C1 at a concrete input: the first attempt fails with the
still-primary signal, and both the first and the retried attempt occupy
sequencer slot `(6, 7)`. -/
theorem C1_witness :
    (runIteration op0 eRestart).2 = POutcome.raised (.actingsetChanged true)
    ∧ seqCalls (runIteration op0 eRestart).1 = [(op0.prevOpId, op0.myId)]
    ∧ seqCalls (runIteration op0 eClean).1 = [(op0.prevOpId, op0.myId)] :=
  ⟨by decide,
   (C1_restart_preserves_sequencer_slot op0 eRestart eClean [] (by decide)).2.1,
   (C1_restart_preserves_sequencer_slot op0 eRestart eClean [] (by decide)).2.2⟩

/-- Claim C2, evaluated at the failing input: a pure balanced read
(`BALANCE_READS` set, classified may-read only) arriving at a node that
holds a valid non-primary replica role.  The source returns
`pg.is_nonprimary()`, which is true there, so `is_misdirected` reports the
read as misdirected and `do_process` silently drops it — on exactly the
nodes the claim (and the source's own comment "balanced reads; any replica
will do") says may serve it.  The spec's decision `spec_misdirected`
returns false at the same input. -/
theorem C2_balanced_read_on_valid_replica_dropped :
    is_misdirected pgReplica opInfoRead mBal = true
    ∧ spec_misdirected pgReplica opInfoRead mBal = false
    ∧ PG.is_nonprimary pgReplica = true
    ∧ do_process opBal pgReplica aClean ([], POutcome.pendingExec)
        = ([], .done) := by
  decide

/-- Claim C3: a discardable operation gets only the incremental-map
epoch-advisory send inside the admitted body — no recovery wait, no object
lock, no execution — and the sequencer's `finish_op` still runs for the
operation's id. -/
theorem C3_discardable_only_incmap (op : ClientRequest) (e : IterEnv)
    (rest : List IterEnv) (ha : e.admission = .ok)
    (hd : e.canDiscard = true) :
    startLoop op (e :: rest)
      = ([Event.enterStage .awaitMap, Event.enterStage .getPg,
          Event.seqStartCall op.prevOpId op.myId,
          Event.sendIncMap op.m.mapEpoch, Event.finishOp op.myId],
         .completed)
    ∧ ∀ ev ∈ (startLoop op (e :: rest)).1,
        Event.isRecoveryEvt ev = false ∧ Event.isLock ev = false
          ∧ Event.isExec ev = false := by
  have h1 : startLoop op (e :: rest)
      = ([Event.enterStage .awaitMap, Event.enterStage .getPg,
          Event.seqStartCall op.prevOpId op.myId,
          Event.sendIncMap op.m.mapEpoch, Event.finishOp op.myId],
         .completed) := by
    simp [startLoop, runIteration, iter_body, ha, hd]
  refine ⟨h1, ?_⟩
  rw [h1]
  intro ev h
  simp at h
  rcases h with h | h | h | h | h <;>
    simp [h, Event.isRecoveryEvt, Event.isLock, Event.isExec]

/-- Witness for C3 at a concrete input. -/
theorem C3_witness :
    startLoop op0 [eDiscard]
      = ([Event.enterStage .awaitMap, Event.enterStage .getPg,
          Event.seqStartCall op0.prevOpId op0.myId,
          Event.sendIncMap op0.m.mapEpoch, Event.finishOp op0.myId],
         .completed) :=
  (C3_discardable_only_incmap op0 eDiscard [] rfl rfl).1

/-- Claim C4: on an idempotence-check hit the core sends the reply carrying
the previously recorded result code with the ack and on-disk flags set,
acquires no object lock and executes no sub-op. -/
theorem C4_already_complete_no_reexecution (op : ClientRequest) (pg : PG)
    (a : AttemptEnv) (rest : List AttemptEnv)
    (hrec : (do_recover_missing op a).2 = none)
    (hc : a.alreadyComplete = true) :
    process_op op pg (a :: rest)
      = (Event.enterStage .recoverMissing :: (do_recover_missing op a).1
          ++ [Event.sendReply (completedReply op.m a.alreadyRet a.osdmapEpoch)],
         .done)
    ∧ (completedReply op.m a.alreadyRet a.osdmapEpoch).result = a.alreadyRet
    ∧ (completedReply op.m a.alreadyRet a.osdmapEpoch).ackFlag = true
    ∧ (completedReply op.m a.alreadyRet a.osdmapEpoch).ondiskFlag = true
    ∧ ∀ ev ∈ (process_op op pg (a :: rest)).1,
        Event.isLock ev = false ∧ Event.isExec ev = false := by
  have h1 := process_op_cons_completed op pg a rest hrec hc
  refine ⟨h1, rfl, rfl, rfl, ?_⟩
  rw [h1]
  intro ev h
  simp at h
  rcases h with h | h | h
  · simp [h, Event.isLock, Event.isExec]
  · have hp := recoveryEvt_props ev (do_recover_missing_events op a ev h)
    exact ⟨hp.2.2.1, hp.2.2.2⟩
  · simp [h, Event.isLock, Event.isExec]

/-- Witness for C4 at a concrete input. -/
theorem C4_witness :
    process_op op0 pgPrim [aDone]
      = (Event.enterStage .recoverMissing :: (do_recover_missing op0 aDone).1
          ++ [Event.sendReply (completedReply op0.m aDone.alreadyRet aDone.osdmapEpoch)],
         .done) :=
  (C4_already_complete_no_reexecution op0 pgPrim aDone [] (by decide) rfl).1

/-- Claim C5: a run that ends with the no-longer-primary replica-set-changed
signal calls `sequencer.abort()` and terminates silently — its whole trace
contains no send of any kind, and the admission loop stops. -/
theorem C5_abort_silent (op : ClientRequest) (envs : List IterEnv)
    (h : (startLoop op envs).2 = .abortedPrimaryChange) :
    Event.abortSeq ∈ (startLoop op envs).1
    ∧ ∀ ev ∈ (startLoop op envs).1, Event.isSend ev = false := by
  induction envs with
  | nil => simp [startLoop] at h
  | cons e rest ih =>
    cases hr : (runIteration op e).2 with
    | done =>
      rw [startLoop_cons_done op e rest hr] at h
      exact absurd h (by simp)
    | pendingExec =>
      rw [startLoop_cons_pending op e rest hr] at h
      exact absurd h (by simp)
    | raised s =>
      cases s with
      | brokenCondVar =>
        rw [startLoop_cons_broken op e rest hr] at h
        exact absurd h (by simp)
      | actingsetChanged b =>
        cases b with
        | true =>
          rw [startLoop_cons_restart op e rest hr] at h
          obtain ⟨ihA, ihB⟩ := ih h
          rw [startLoop_cons_restart op e rest hr]
          constructor
          · simp [ihA]
          · intro ev hv
            simp at hv
            rcases hv with hv | hv | hv
            · exact runIteration_raised_noSend op e _ hr ev hv
            · simp [hv, Event.isSend]
            · exact ihB ev hv
        | false =>
          rw [startLoop_cons_abort op e rest hr]
          constructor
          · simp
          · intro ev hv
            simp at hv
            rcases hv with hv | hv
            · exact runIteration_raised_noSend op e _ hr ev hv
            · simp [hv, Event.isSend]

/-- Witness for C5 at a concrete input. -/
theorem C5_witness :
    Event.abortSeq ∈ (startLoop op0 [eAbort]).1 :=
  (C5_abort_silent op0 [eAbort] (by decide)).1

/-- Claim C6: the recovery trigger resolves immediately, without touching
the recovery engine, when the object is neither unreadable nor
degraded/backfilling; when recovery is needed and one is already
registered for the object it awaits the existing completion and starts no
new task; otherwise it starts exactly one new recovery task and awaits it,
so concurrent readers of the same object never start duplicate
recoveries. -/
theorem C6_recovery_trigger_cases (op : ClientRequest) (a : AttemptEnv) :
    (a.unreadable = false → a.degraded = false →
      do_recover_missing op a = ([], none))
    ∧ ((a.unreadable = true ∨ a.degraded = true) → a.recovering = true →
      (do_recover_missing op a).1 = [Event.recoveryWaitExisting op.m.hobj])
    ∧ ((a.unreadable = true ∨ a.degraded = true) → a.recovering = false →
      (do_recover_missing op a).1 = [Event.recoveryStartNew op.m.hobj]) := by
  refine ⟨?_, ?_, ?_⟩
  · intro hu hd
    simp [do_recover_missing, hu, hd]
  · intro h hr
    rcases h with h | h <;> simp [do_recover_missing, h, hr]
  · intro h hr
    rcases h with h | h <;> simp [do_recover_missing, h, hr]

/-- Witness for C6 at a concrete input: a degraded object with a recovery
already registered is awaited without starting a new task. -/
theorem C6_witness :
    (do_recover_missing op0 aDegraded).1
      = [Event.recoveryWaitExisting op0.m.hobj] :=
  (C6_recovery_trigger_cases op0 aDegraded).2.1 (Or.inr rfl) rfl

/-- Claim C7: on a non-primary node, an operation that is not misdirected
but whose object cannot be served as a replica read gets an immediate
`-EAGAIN` reply whose ack and on-disk flags are exactly the request's own
ack and on-disk flags, and which attaches per-op results exactly when the
request's return-vec flag is set; no execution occurs (the trace holds
only the send). -/
theorem C7_unservable_replica_read_eagain (op : ClientRequest) (pg : PG)
    (a : AttemptEnv) (retry : List Event × POutcome)
    (hp : pg.is_primary = false)
    (hm : is_misdirected pg a.opInfo op.m = false)
    (hs : a.canServeReplicaRead = false) :
    do_process op pg a retry
      = ([Event.sendReply (eagainReply op.m a.osdmapEpoch)], .done)
    ∧ (eagainReply op.m a.osdmapEpoch).result = -EAGAIN
    ∧ (eagainReply op.m a.osdmapEpoch).ackFlag = op.m.flags.ack
    ∧ (eagainReply op.m a.osdmapEpoch).ondiskFlag = op.m.flags.ondisk
    ∧ attachesPerOpData (eagainReply op.m a.osdmapEpoch)
        = op.m.flags.returnvec := by
  refine ⟨do_process_eq_eagainReply op pg a retry hp hm hs, rfl, rfl, rfl, ?_⟩
  simp [attachesPerOpData, eagainReply]

/-- Witness for C7 at a concrete input: a balanced read on a stray node
(no valid replica role, hence not misdirected by the source's decision)
whose object is not servable as a replica read. -/
theorem C7_witness :
    do_process opBal pgStray aNoServe ([], POutcome.pendingExec)
      = ([Event.sendReply (eagainReply opBal.m aNoServe.osdmapEpoch)], .done) :=
  (C7_unservable_replica_read_eagain opBal pgStray aNoServe
    ([], POutcome.pendingExec) rfl (by decide) rfl).1

/-- Claim C8: when execution returns the transient eagain signal, the core
re-enters the object-op path with the same operation identity, starting
again from its first step (the recovery wait); the re-entry's trace
contains no sequencer-control effect at all — in particular `start_op` is
not called again, so no new ordering slot is taken — and the re-entry
performs no idempotence-record update, only the read-only
`already_complete` query that `process_op` always begins with. -/
theorem C8_eagain_reenters_object_path (op : ClientRequest) (pg : PG)
    (a b : AttemptEnv) (rest : List AttemptEnv)
    (hx : a.exec = .eagainRetry)
    (hreach : pg.is_primary = true
      ∨ (is_misdirected pg a.opInfo op.m = false
          ∧ a.canServeReplicaRead = true)) :
    do_process op pg a (process_op op pg (b :: rest))
      = (Event.execute op.m.hobj :: (process_op op pg (b :: rest)).1,
         (process_op op pg (b :: rest)).2)
    ∧ (∀ ev ∈ (process_op op pg (b :: rest)).1, Event.isSeqCtl ev = false)
    ∧ ∃ t, (process_op op pg (b :: rest)).1
        = Event.enterStage .recoverMissing :: t := by
  refine ⟨?_, process_op_noSeqCtl op pg (b :: rest),
    process_op_cons_head op pg b rest⟩
  rw [do_process_eq_exec op pg a (process_op op pg (b :: rest)) hreach]
  simp [run_exec, hx]

/-- Witness for C8 at a concrete input. -/
theorem C8_witness :
    do_process op0 pgPrim aEagain (process_op op0 pgPrim [aClean])
      = (Event.execute op0.m.hobj :: (process_op op0 pgPrim [aClean]).1,
         (process_op op0 pgPrim [aClean]).2) :=
  (C8_eagain_reenters_object_path op0 pgPrim aEagain aClean [] rfl
    (Or.inl rfl)).1

/-- Claim C9, refuted at a concrete input: the reply synthesized for an
already-completed request id is constructed with `ignore_out_data = false`
(`client_request.cc:155`), so it does attach per-op return data even though
the client did not set the return-vec flag (`m0` has `returnvec = false`),
contradicting the claim that it never attaches per-op return data. -/
theorem C9_counterexample :
    m0.flags.returnvec = false
    ∧ attachesPerOpData (completedReply m0 3 5) = true := by
  decide

/-- Claim C9 as amended: the reply synthesized for an already-completed
request id always carries exactly the ack and on-disk flags and always
attaches per-op return data (its `ignore_out_data` argument is the
constant false), regardless of whether the client set the return-vec
flag — unlike the try-again reply, which attaches per-op data exactly when
the return-vec flag is set. -/
theorem C9_completed_reply_flags_and_data (m : MOSDOp) (ret : Int)
    (ep : Nat) :
    (completedReply m ret ep).ackFlag = true
    ∧ (completedReply m ret ep).ondiskFlag = true
    ∧ attachesPerOpData (completedReply m ret ep) = true
    ∧ attachesPerOpData (eagainReply m ep) = m.flags.returnvec := by
  simp [completedReply, eagainReply, attachesPerOpData]

/-- Claim C10: when the sequencer admission wait fails because the
underlying condition variable is broken, the operation terminates
silently: the loop stops in a normal terminal state, no send of any kind
happens, and `finish_op` is never called. -/
theorem C10_broken_cv_silent (op : ClientRequest) (e : IterEnv)
    (rest : List IterEnv)
    (h : e.admission = .raise .brokenCondVar) :
    startLoop op (e :: rest)
      = ([Event.enterStage .awaitMap, Event.enterStage .getPg,
          Event.seqStartCall op.prevOpId op.myId], .stoppedBrokenCv)
    ∧ ∀ ev ∈ (startLoop op (e :: rest)).1,
        Event.isSend ev = false ∧ ∀ i, ev ≠ Event.finishOp i := by
  have h1 : startLoop op (e :: rest)
      = ([Event.enterStage .awaitMap, Event.enterStage .getPg,
          Event.seqStartCall op.prevOpId op.myId], .stoppedBrokenCv) := by
    simp [startLoop, runIteration, h]
  refine ⟨h1, ?_⟩
  rw [h1]
  intro ev hv
  simp at hv
  rcases hv with hv | hv | hv <;> simp [hv, Event.isSend]

/-- Witness for C10 at a concrete input. -/
theorem C10_witness :
    startLoop op0 [eBroken]
      = ([Event.enterStage .awaitMap, Event.enterStage .getPg,
          Event.seqStartCall op0.prevOpId op0.myId], .stoppedBrokenCv) :=
  (C10_broken_cv_silent op0 eBroken [] rfl).1
